import Mathlib

/-!
Verification development for the Uber Eats scraper (`main.py`, `utils.py`).

The Python source is shallowly embedded: every stateful function is modelled
as a pure function over an explicit `Globals` record mirroring the program's
`GlobalConfig` class and the on-disk JSON files it manipulates.  Network I/O
(the Page Fetcher of the spec) is abstracted by a `FetchOutcome` parameter:
the classified result of `session.get(...)` exactly as the `except` arms of
the source distinguish it.  Python dicts (which preserve insertion order) are
modelled as association lists; Python `list.remove` as `List.erase`.
-/

set_option autoImplicit false

namespace UberScraper

/-! ## Python string primitives

`pyStrip` models Python `str.strip()` (drop whitespace from both ends),
`pyLower`/`pyUpper` model `str.lower()`/`str.upper()`. -/

/-- Drop leading whitespace, then drop trailing whitespace (via reverse). -/
def stripChars (l : List Char) : List Char :=
  ((l.dropWhile Char.isWhitespace).reverse.dropWhile Char.isWhitespace).reverse

/-- Python `str.strip()`. -/
def pyStrip (s : String) : String :=
  String.mk (stripChars s.data)

/-- Python `str.lower()` (charwise, like `String.toLower`). -/
def pyLower (s : String) : String := String.mk (s.data.map Char.toLower)

/-- Python `str.upper()` (charwise, like `String.toUpper`). -/
def pyUpper (s : String) : String := String.mk (s.data.map Char.toUpper)

/-- Python `str.startswith` (like `String.startsWith`). -/
def pyStartswith (s pre : String) : Bool := pre.data.isPrefixOf s.data

/-- The normalized identifier the source compares cities by:
`city_name.strip().lower()` (main.py line 162). -/
def pyNorm (s : String) : String := pyLower (pyStrip s)

theorem dropWhile_self {α : Type} (p : α → Bool) (l : List α) :
    (l.dropWhile p).dropWhile p = l.dropWhile p := by
  induction l with
  | nil => rfl
  | cons a t ih =>
    cases hpa : p a with
    | true => simpa [List.dropWhile_cons, hpa] using ih
    | false => simp [List.dropWhile_cons, hpa]

theorem head?_dropWhile_false {α : Type} (p : α → Bool) (l : List α) :
    ∀ c, (l.dropWhile p).head? = some c → p c = false := by
  induction l with
  | nil => intro c h; simp at h
  | cons a t ih =>
    intro c h
    cases hpa : p a with
    | true => exact ih c (by simpa [List.dropWhile_cons, hpa] using h)
    | false =>
      simp [List.dropWhile_cons, hpa] at h
      simpa [h] using hpa

theorem dropWhile_eq_self_of_head? {α : Type} (p : α → Bool) (l : List α)
    (h : ∀ c, l.head? = some c → p c = false) : l.dropWhile p = l := by
  cases l with
  | nil => rfl
  | cons a t => simp [List.dropWhile_cons, h a rfl]

/-- Fact: `dropWhile` only removes elements from the front (the result is a tail). -/
theorem dropWhile_is_tail {α : Type} (p : α → Bool) (l : List α) :
    ∃ t, t ++ l.dropWhile p = l := by
  induction l with
  | nil => exact ⟨[], rfl⟩
  | cons a tl ih =>
    cases hpa : p a with
    | false => exact ⟨[], by simp [List.dropWhile_cons, hpa]⟩
    | true =>
      obtain ⟨t, ht⟩ := ih
      exact ⟨a :: t, by simp [List.dropWhile_cons, hpa, ht]⟩

theorem dropWhile_stripChars (l : List Char) :
    (stripChars l).dropWhile Char.isWhitespace = stripChars l := by
  apply dropWhile_eq_self_of_head?
  intro c hc
  set p := Char.isWhitespace
  set a := l.dropWhile p with ha
  obtain ⟨t, ht⟩ := dropWhile_is_tail p a.reverse
  -- stripChars l is an initial segment of a
  have hinit : stripChars l ++ t.reverse = a := by
    have := congrArg List.reverse ht
    simpa [stripChars, List.reverse_append] using this
  have hhead : a.head? = some c := by
    rcases hs : stripChars l with _ | ⟨x, xs⟩
    · rw [hs] at hc; simp at hc
    · rw [hs] at hc hinit
      simp at hc
      rw [← hinit, hc]
      rfl
  exact head?_dropWhile_false p l c (ha ▸ hhead)

theorem stripChars_idem (l : List Char) : stripChars (stripChars l) = stripChars l := by
  have h1 := dropWhile_stripChars l
  show ((((stripChars l).dropWhile Char.isWhitespace).reverse).dropWhile Char.isWhitespace).reverse
      = stripChars l
  rw [h1]
  show (((((l.dropWhile Char.isWhitespace).reverse.dropWhile Char.isWhitespace).reverse).reverse).dropWhile Char.isWhitespace).reverse = stripChars l
  rw [List.reverse_reverse, dropWhile_self]
  rfl

theorem pyStrip_idem (s : String) : pyStrip (pyStrip s) = pyStrip s := by
  unfold pyStrip
  exact congrArg String.mk (stripChars_idem s.data)

theorem pyNorm_pyStrip (s : String) : pyNorm (pyStrip s) = pyNorm s := by
  unfold pyNorm
  rw [pyStrip_idem]

/-! ## Data model

`Shop`, `CityEntry`, `CountryData` mirror the JSON documents the source
builds: `countries/{cc}.json` is a `CountryData`; the failure ledger file
`failed_links_{cc}.json` is a `LedgerFile` (country code → city name → list
of failed links).  `Globals` mirrors `GlobalConfig` plus the on-disk files
the claims are about; `ledgerTrace` records the successive contents written
to the ledger file (each `with open(failed_links_file, 'w')`). -/

structure Shop where
  name : String
  link : String
deriving DecidableEq

structure CityEntry where
  city : String
  link : String
  shops : List Shop
deriving DecidableEq

structure CountryData where
  country : String
  cities : List CityEntry
deriving DecidableEq

/-- In-memory value of `failed_data[country_code]`: city name → failed links. -/
abbrev CityLinks := List (String × List String)

/-- Contents of `failed_links_{cc}.json`: country code → `CityLinks`. -/
abbrev LedgerFile := List (String × CityLinks)

structure Globals where
  cancel_requested : Bool
  data : CountryData
  /-- Contents of the failure-ledger file; `none` = the file does not exist. -/
  ledgerDisk : Option LedgerFile
  /-- Snapshots written to the ledger file, in order. -/
  ledgerTrace : List LedgerFile
deriving DecidableEq

/-! ## Association-list helpers (Python dict operations) -/

/-- Python `d.get(k)` / `d[k]`: first binding of a key. -/
def assocGet {α : Type} (m : List (String × α)) (k : String) : Option α :=
  match m with
  | [] => none
  | p :: rest => if p.1 = k then some p.2 else assocGet rest k

/-- Python `if k not in d: d[k] = []` (dicts append new keys at the end). -/
def ensureKey {α : Type} (m : List (String × List α)) (k : String) :
    List (String × List α) :=
  if (assocGet m k).isSome then m else m ++ [(k, [])]

/-- Mutation of the value stored under a key: `d[k] = f(d[k])`. -/
def updateAt {α : Type} (m : List (String × α)) (k : String) (f : α → α) :
    List (String × α) :=
  m.map (fun p => if p.1 = k then (p.1, f p.2) else p)

/-- Python `del d[k]`. -/
def removeKey {α : Type} (m : List (String × α)) (k : String) :
    List (String × α) :=
  m.filter (fun p => p.1 ≠ k)

theorem assocGet_updateAt_self {α : Type} (m : List (String × α)) (k : String)
    (f : α → α) : assocGet (updateAt m k f) k = (assocGet m k).map f := by
  induction m with
  | nil => rfl
  | cons p rest ih =>
    by_cases h : p.1 = k <;> simp [updateAt, assocGet, h] <;>
      simpa [updateAt] using ih

theorem assocGet_updateAt_ne {α : Type} (m : List (String × α)) (k k' : String)
    (f : α → α) (h : k' ≠ k) : assocGet (updateAt m k f) k' = assocGet m k' := by
  induction m with
  | nil => rfl
  | cons p rest ih =>
    by_cases hp : p.1 = k
    · by_cases hp' : p.1 = k'
      · exact absurd (hp.symm.trans hp') (Ne.symm h)
      · show assocGet ((if p.1 = k then (p.1, f p.2) else p) :: updateAt rest k f) k' = _
        rw [if_pos hp]
        show (if p.1 = k' then some (f p.2) else assocGet (updateAt rest k f) k')
            = (if p.1 = k' then some p.2 else assocGet rest k')
        rw [if_neg hp', if_neg hp', ih]
    · show assocGet ((if p.1 = k then (p.1, f p.2) else p) :: updateAt rest k f) k' = _
      rw [if_neg hp]
      show (if p.1 = k' then some p.2 else assocGet (updateAt rest k f) k')
          = (if p.1 = k' then some p.2 else assocGet rest k')
      by_cases hp' : p.1 = k'
      · rw [if_pos hp', if_pos hp']
      · rw [if_neg hp', if_neg hp', ih]

theorem assocGet_append {α : Type} (m m' : List (String × α)) (k : String) :
    assocGet (m ++ m') k = ((assocGet m k).rec (assocGet m' k) (fun v => some v)) := by
  induction m with
  | nil => rfl
  | cons p rest ih =>
    by_cases h : p.1 = k <;> simp [assocGet, h] <;> exact ih

theorem assocGet_ensureKey_self {α : Type} (m : List (String × List α)) (k : String) :
    assocGet (ensureKey m k) k = some ((assocGet m k).getD []) := by
  unfold ensureKey
  cases h : assocGet m k with
  | some v => simp [h]
  | none => simp [h, assocGet_append, assocGet]

theorem assocGet_ensureKey_ne {α : Type} (m : List (String × List α)) (k k' : String)
    (h : k' ≠ k) : assocGet (ensureKey m k) k' = assocGet m k' := by
  unfold ensureKey
  cases hm : assocGet m k with
  | some v => simp
  | none =>
    simp only [hm, Option.isSome_none, Bool.false_eq_true, if_false]
    rw [assocGet_append]
    cases hk' : assocGet m k' with
    | some v => simp
    | none => simp [assocGet, Ne.symm h]

/-! ## `get_country_code` (main.py lines 93-95) -/

/-- Normalize country code, converting 'uk' to 'gb' if necessary. -/
def get_country_code (code : String) : String :=
  if pyLower code = "uk" then "gb" else pyLower code

/-! ## `log_failed_link` (main.py lines 142-178)

The function loads `failed_links_{ncc}.json` (or `\x7b\x7d` when absent),
inserts the country key, the city key, appends the link to the city's list
(unconditionally), then — if no city with the same normalized name exists in
`GlobalConfig.data["cities"]` — appends a placeholder entry
`\x7bcity, link, shops: []\x7d` and saves the country file, and finally
rewrites the ledger file.  When `link is None` and the placeholder branch is
taken, `link.strip()` raises `AttributeError`; the surrounding `try` catches
it and the function returns `False` with no file written.  The returned
`Bool` is that return value. -/

/-- Record a write of the ledger file. -/
def writeLedger (g : Globals) (fd : LedgerFile) : Globals :=
  { g with ledgerDisk := some fd, ledgerTrace := g.ledgerTrace ++ [fd] }

/-- The in-memory `failed_data` dict that lines 147-159 build before writing,
given the previous contents `fd0` of the ledger file: insert the country
key, insert the city key, and — when a link was passed — append it to the
city's list (unconditionally). -/
def builtFailedData (fd0 : LedgerFile) (ncc city : String) (link : Option String) :
    LedgerFile :=
  let fd1 := ensureKey fd0 ncc
  let fd2 := updateAt fd1 ncc (fun cl => ensureKey cl city)
  match link with
  | some l => updateAt fd2 ncc (fun cl => updateAt cl city (fun ls => ls ++ [l]))
  | none => fd2

def log_failed_link (g : Globals) (country_code city_name : String)
    (link : Option String) : Globals × Bool :=
  let ncc := get_country_code country_code
  let failed_data := builtFailedData (g.ledgerDisk.getD []) ncc city_name link
  -- `existing_city = next((city for city in cities if …), None)`: the value is
  -- only tested for truthiness, so it is modelled by `List.any`
  if g.data.cities.any (fun c => pyNorm c.city = pyNorm city_name) then
    (writeLedger g failed_data, true)
  else
    match link with
    | none => (g, false)  -- `link.strip()` raises AttributeError; caught, returns False
    | some l =>
      let g := { g with data := { g.data with
        cities := g.data.cities ++ [⟨pyStrip city_name, pyStrip l, []⟩] } }
      -- save_data(f"countries/{ncc}.json", GlobalConfig.data, False) happens here
      (writeLedger g failed_data, true)

/-! ## `save_data` (main.py lines 212-222)

Modelled as the sequence of file-system operations it performs: it opens the
destination path with mode `"w"` (truncating it in place) and writes the
serialized JSON into it.  There is no temporary file and no rename. -/

inductive FsOp where
  | openTrunc : String → FsOp
  | writeAll : String → String → FsOp
  | renameReplace : String → String → FsOp
deriving DecidableEq

/-- The path a file-system operation affects (destination for a rename). -/
def FsOp.target : FsOp → String
  | .openTrunc p => p
  | .writeAll p _ => p
  | .renameReplace _ d => d

/-- The file-system operations performed by `save_data(file_path, data)`:
`open(file_path, "w")` followed by `json.dump(data, file)`. -/
def save_data_ops (file_path serialized : String) : List FsOp :=
  [.openTrunc file_path, .writeAll file_path serialized]

/-! ## `scrape_city` (main.py lines 284-337)

The Page Fetcher (`session.get` + `raise_for_status` + BeautifulSoup
extraction) is abstracted by a `FetchOutcome`: either the extracted shop
list, or one of the classified request exceptions the `except` arms
distinguish.  On `ConnectionError`, `Timeout` and `HTTPError` the source
sets `IsConnection = False`, logs the failed link, and the `finally` block
then sets `GlobalConfig.cancel_requested = True` and lets the function
return `None`.  On any other `RequestException` the failed link is logged
and the `finally` block returns the (empty) `shops` list. -/

inductive FetchOutcome where
  | ok : List Shop → FetchOutcome
  | connError : FetchOutcome
  | timeout : FetchOutcome
  | httpError : FetchOutcome
  | reqError : FetchOutcome
deriving DecidableEq

def scrape_city (g : Globals) (outcome : FetchOutcome)
    (city_url city_name country_code : String) : Globals × Option (List Shop) :=
  if g.cancel_requested then (g, some []) else
  -- jitter sleep, then the fetch
  match outcome with
  | .ok shops => (g, some shops)
  | .connError =>
    let g := (log_failed_link g country_code city_name (some city_url)).1
    ({ g with cancel_requested := true }, none)
  | .timeout =>
    let g := (log_failed_link g country_code city_name (some city_url)).1
    ({ g with cancel_requested := true }, none)
  | .httpError =>
    let g := (log_failed_link g country_code city_name (some city_url)).1
    ({ g with cancel_requested := true }, none)
  | .reqError =>
    let g := (log_failed_link g country_code city_name (some city_url)).1
    (g, some [])

/-! ## The child-completion loop of `scrape_country` (main.py lines 493-533)

`scrape_country` submits one `scrape_city` job per city to a thread pool and
handles completions with `as_completed`.  We model the serialized schedule in
which each job's body runs and its completion is handled before the next
completion is examined (completions for one Target are handled one at a time
by the single main-loop thread; `jobs` is the completion order).  The handler
(lines 500-533): if `cancel_requested` is set, logs a country-level failed
link and returns; if the job's result is falsy (`None` or `[]`), logs the
city's failed link and returns; otherwise merges the shops into
`GlobalConfig.data["cities"]` (updating every entry with the exact same city
name, appending if none matches) and saves the country file. -/

structure Job where
  city_name : String
  city_url : String
  outcome : FetchOutcome
deriving DecidableEq

inductive RunExit where
  | completed : RunExit
  | cancelAbort : RunExit
  | emptyAbort : RunExit
deriving DecidableEq

/-- Lines 513-529: replace the shop list of every state entry whose `city`
field equals `name` exactly; append a fresh entry if none does. -/
def merge_city_shops (g : Globals) (name city_url : String) (shops : List Shop) :
    Globals :=
  let city_found := g.data.cities.any (fun c => c.city = name)
  let cities := g.data.cities.map
    (fun c => if c.city = name then { c with shops := shops } else c)
  let cities := if city_found then cities else cities ++ [⟨name, city_url, shops⟩]
  -- save_data(file_path, GlobalConfig.data, False)
  { g with data := { g.data with cities := cities } }

def process_completions (ncc country url_country : String) :
    Globals → List Job → Globals × RunExit
  | g, [] => (g, .completed)
  | g, j :: rest =>
    let (g, res) := scrape_city g j.outcome j.city_url j.city_name ncc
    if g.cancel_requested then
      ((log_failed_link g ncc country (some url_country)).1, .cancelAbort)
    else
      let shops := res.getD []
      if shops.isEmpty then
        ((log_failed_link g ncc j.city_name (some j.city_url)).1, .emptyAbort)
      else
        process_completions ncc country url_country
          (merge_city_shops g j.city_name j.city_url shops) rest

/-! ## The discovery loop of `scrape_country` (main.py lines 422-468)

For each anchor of the country's listing page: if its `href` is truthy and
starts with `/{ncc}/city`, the candidate's name is `get_text().strip()`;
the inner loop over `GlobalConfig.data["cities"]` sets `is_city_exist`
when an entry's `city` field equals the candidate name **exactly**, and
overwrites a falsy `link` field with `"TEST"`; candidates with
`is_city_exist` are skipped, the others are appended to both
`data_to_save["cities"]` and `GlobalConfig.data["cities"]`. -/

structure Anchor where
  href : Option String
  text : String
deriving DecidableEq

structure DiscoverAcc where
  dataCities : List CityEntry
  toSave : List CityEntry
  shop_count : Nat
  is_update : Bool
deriving DecidableEq

def discover_step (ncc : String) (acc : DiscoverAcc) (a : Anchor) : DiscoverAcc :=
  match a.href with
  | none => acc
  | some href =>
    let name := pyStrip a.text
    if href ≠ "" ∧ pyStartswith href ("/" ++ ncc ++ "/city") then
      let shop_count := acc.shop_count + 1
      let city_url := "https://www.ubereats.com" ++ href
      let is_city_exist := acc.dataCities.any (fun c => c.city = name)
      let is_update := acc.is_update ||
        acc.dataCities.any (fun c => c.city = name && c.link = "")
      let dataCities := acc.dataCities.map
        (fun c => if c.city = name ∧ c.link = "" then { c with link := "TEST" } else c)
      if is_city_exist then
        { acc with dataCities := dataCities, shop_count := shop_count,
                   is_update := is_update }
      else
        { dataCities := dataCities ++ [⟨name, city_url, []⟩],
          toSave := acc.toSave ++ [⟨name, city_url, []⟩],
          shop_count := shop_count, is_update := is_update }
    else acc

/-- The de-duplication rule in the words of the spec (§4.4 step 4): skip a
candidate exactly when its normalized identifier (case-insensitive, trimmed)
already exists in the loaded `TargetState` with a resolved — that is,
non-ledger — status.  Stated here only to be compared against the rule the
code implements (`discover_step`). -/
def spec_skip_rule (state : List CityEntry) (ledger : CityLinks) (name : String) :
    Bool :=
  state.any (fun c =>
    pyNorm c.city = pyNorm name &&
    !(ledger.any (fun q => pyNorm q.1 = pyNorm c.city)))

/-! ## Display-name resolution in `scrape_country` (main.py lines 356-378)

The lookup against `restcountries.com` is abstracted by a `LookupOutcome`:
`ok (some common)` models a JSON list answer carrying the country's common
name, `ok none` a non-list answer (the `isinstance` check fails).  The
`finally` block runs on every path: it returns `"Connection Error"` when
`GlobalConfig.IsConnectionsAvailable` is false, and otherwise executes
`country = normalized_country_code.upper()` — unconditionally overwriting
whatever the `try` block assigned.  The result is `none` for the early
`return "Connection Error"` and `some c` for the display name the rest of
`scrape_country` goes on to use. -/

inductive LookupOutcome where
  | ok : Option String → LookupOutcome
  | connError : LookupOutcome
  | timeout : LookupOutcome
  | httpError : LookupOutcome
  | reqError : LookupOutcome
deriving DecidableEq

def resolve_country_name (isConnectionsAvailable : Bool) (outcome : LookupOutcome)
    (normalized_country_code : String) : Bool × Option String :=
  -- the value `country` holds at the end of the try block (line 363);
  -- dead after the unconditional assignment in the finally block (line 378)
  let tryCountry : Option String :=
    match outcome with
    | .ok (some common) => some common
    | .ok none => some (pyUpper normalized_country_code)
    | _ => none
  let isAvail : Bool :=
    match outcome with
    | .connError => false
    | .timeout => false
    | .httpError => false
    | _ => isConnectionsAvailable
  if !isAvail then (isAvail, none)
  else
    let _ := tryCountry
    (isAvail, some (pyUpper normalized_country_code))

/-! ## `resume_failed_scraping` (main.py lines 224-273)

The ledger file is loaded once into `failed_data`; `failed_data[cc]` raises
`KeyError` when the key is absent (modelled as `Except.error`).  The loop
replays each failed link through `scrape_city`; when the result is truthy it
replaces the shops of the **first** state entry with the same normalized
city name, saves the country file, removes the link from the in-memory
ledger (`list.remove`, first occurrence), deletes the city key if its list
became empty, rewrites the ledger file, and removes the file when the
country's dict became empty.  `GlobalConfig.cancel_requested` is polled
before every link and aborts the whole function. -/

/-- Lines 252-255: update the first normalized-name match only (`break`). -/
def updateFirstCityShops (cities : List CityEntry) (city_name : String)
    (shops : List Shop) : List CityEntry :=
  match cities with
  | [] => []
  | c :: rest =>
    if pyNorm c.city = pyNorm city_name then { c with shops := shops } :: rest
    else c :: updateFirstCityShops rest city_name shops

/-- The inner loop over one city's failed links.  Returns the updated
globals, the updated in-memory `failed_data`, and whether the function
early-returned on cancellation. -/
def resume_city (g : Globals) (fd : LedgerFile) (cc city_name : String)
    (outcome : String → String → FetchOutcome) :
    List String → Globals × LedgerFile × Bool
  | [] => (g, fd, false)
  | link :: rest =>
    if g.cancel_requested then (g, fd, true)
    else
      let (g, res) := scrape_city g (outcome city_name link) link city_name cc
      let shops := res.getD []
      if shops.isEmpty then resume_city g fd cc city_name outcome rest
      else
        let g := { g with data := { g.data with
          cities := updateFirstCityShops g.data.cities city_name shops } }
        -- save_data(f"countries/{cc}.json", GlobalConfig.data, False)
        let fd := updateAt fd cc (fun cl => updateAt cl city_name (fun ls => ls.erase link))
        let fd := updateAt fd cc (fun cl =>
          if assocGet cl city_name = some [] then removeKey cl city_name else cl)
        let g := writeLedger g fd
        let g := if assocGet fd cc = some [] then { g with ledgerDisk := none } else g
        resume_city g fd cc city_name outcome rest

/-- The outer loop over `cities_to_retry = list(failed_data[cc].items())`. -/
def resume_cities (cc : String) (outcome : String → String → FetchOutcome) :
    Globals → LedgerFile → List (String × List String) → Globals × LedgerFile
  | g, fd, [] => (g, fd)
  | g, fd, (city_name, links) :: rest =>
    let (g, fd, early) := resume_city g fd cc city_name outcome links
    if early then (g, fd) else resume_cities cc outcome g fd rest

def resume_failed_scraping (g : Globals) (country_code : String)
    (outcome : String → String → FetchOutcome) : Except String Globals :=
  let cc := if country_code = "uk" then "gb" else country_code
  match g.ledgerDisk with
  | none => .ok g  -- "No failed links found", return
  | some failed_data =>
    match assocGet failed_data cc with
    | none => .error ("KeyError: " ++ cc)
    | some cities_to_retry =>
      .ok (resume_cities cc outcome g failed_data cities_to_retry).1

/-! ## `interrupt_handler` (main.py lines 127-140)

The SIGINT handler sets the cancellation flag; it then performs
`cleanup_json_file()`, `log_summary()` and `exit_program(0, False)` — pure
I/O and process exit, outside the modelled state. -/

def interrupt_handler (g : Globals) : Globals :=
  { g with cancel_requested := true }

/-! ## Observations of the ledger -/

/-- The list of failed links recorded for `(cc, city)` in a ledger file
(`[]` when the file, the country or the city is absent). -/
def ledgerRefs (lf : Option LedgerFile) (cc city : String) : List String :=
  (assocGet ((assocGet (lf.getD []) cc).getD []) city).getD []

/-- Every city key of every country entry of the ledger file is backed by a
state entry with the same normalized name (spec §8, placeholder
consistency). -/
def ledgerBacked (g : Globals) : Prop :=
  ∀ p ∈ g.ledgerDisk.getD [], ∀ q ∈ p.2,
    ∃ e ∈ g.data.cities, pyNorm e.city = pyNorm q.1

/-! ## Lemmas about `log_failed_link` -/

theorem mem_updateAt {α : Type} {m : List (String × α)} {k : String} {f : α → α}
    {p : String × α} (h : p ∈ updateAt m k f) :
    ∃ p0 ∈ m, p.1 = p0.1 ∧ (p.2 = p0.2 ∨ p.2 = f p0.2) := by
  obtain ⟨p0, hp0, heq⟩ := List.mem_map.mp h
  by_cases hk : p0.1 = k
  · refine ⟨p0, hp0, ?_, ?_⟩
    · rw [← heq, if_pos hk]
    · right; rw [← heq, if_pos hk]
  · exact ⟨p0, hp0, by rw [← heq, if_neg hk], Or.inl (by rw [← heq, if_neg hk])⟩

theorem mem_ensureKey {α : Type} {m : List (String × List α)} {k : String}
    {p : String × List α} (h : p ∈ ensureKey m k) : p ∈ m ∨ p = (k, []) := by
  unfold ensureKey at h
  by_cases hk : (assocGet m k).isSome
  · rw [if_pos hk] at h; exact Or.inl h
  · rw [if_neg hk] at h
    rcases List.mem_append.mp h with h' | h'
    · exact Or.inl h'
    · exact Or.inr (by simpa using h')

theorem log_failed_link_disk (g : Globals) (cc city : String) (l : String) :
    (log_failed_link g cc city (some l)).1.ledgerDisk
      = some (builtFailedData (g.ledgerDisk.getD []) (get_country_code cc) city (some l))
    ∧ (log_failed_link g cc city (some l)).2 = true := by
  unfold log_failed_link
  split
  · exact ⟨rfl, rfl⟩
  · exact ⟨rfl, rfl⟩

/-- The links recorded in the built `failed_data`: the pair
`(ncc, city)` gets the link appended, everything else is untouched. -/
theorem builtFailedData_refs (fd0 : LedgerFile) (ncc city l cc' city' : String) :
    (assocGet ((assocGet (builtFailedData fd0 ncc city (some l)) cc').getD []) city').getD []
      = if cc' = ncc ∧ city' = city
        then (assocGet ((assocGet fd0 cc').getD []) city').getD [] ++ [l]
        else (assocGet ((assocGet fd0 cc').getD []) city').getD [] := by
  unfold builtFailedData
  by_cases hcc : cc' = ncc
  · subst hcc
    rw [assocGet_updateAt_self, assocGet_updateAt_self, assocGet_ensureKey_self]
    simp only [Option.map_some', Option.getD_some]
    by_cases hcity : city' = city
    · subst hcity
      rw [assocGet_updateAt_self, assocGet_ensureKey_self]
      simp
    · rw [assocGet_updateAt_ne _ _ _ _ hcity, assocGet_ensureKey_ne _ _ _ hcity]
      simp [hcity]
  · rw [assocGet_updateAt_ne _ _ _ _ hcc, assocGet_updateAt_ne _ _ _ _ hcc,
      assocGet_ensureKey_ne _ _ _ hcc]
    simp [hcc]

theorem log_failed_link_refs (g : Globals) (cc city l cc' city' : String) :
    ledgerRefs (log_failed_link g cc city (some l)).1.ledgerDisk cc' city'
      = if cc' = get_country_code cc ∧ city' = city
        then ledgerRefs g.ledgerDisk cc' city' ++ [l]
        else ledgerRefs g.ledgerDisk cc' city' := by
  rw [show (log_failed_link g cc city (some l)).1.ledgerDisk = _ from
    (log_failed_link_disk g cc city l).1]
  unfold ledgerRefs
  simpa using builtFailedData_refs (g.ledgerDisk.getD []) (get_country_code cc) city l cc' city'

theorem log_failed_link_cancel (g : Globals) (cc city : String) (link : Option String) :
    (log_failed_link g cc city link).1.cancel_requested = g.cancel_requested := by
  unfold log_failed_link
  split
  · rfl
  · split
    · rfl
    · rfl

theorem log_failed_link_data_of_found (g : Globals) (cc city : String)
    (link : Option String) (h : ∃ e ∈ g.data.cities, pyNorm e.city = pyNorm city) :
    (log_failed_link g cc city link).1.data = g.data := by
  unfold log_failed_link
  obtain ⟨e, he, hnorm⟩ := h
  have hany : g.data.cities.any (fun c => pyNorm c.city = pyNorm city) = true :=
    List.any_eq_true.mpr ⟨e, he, by simpa using hnorm⟩
  rw [if_pos hany]
  rfl

/-- A link already recorded in the ledger file stays recorded across any
further `log_failed_link`. -/
theorem log_failed_link_refs_mono (g : Globals) (cc city l cc' city' u : String)
    (h : u ∈ ledgerRefs g.ledgerDisk cc' city') :
    u ∈ ledgerRefs (log_failed_link g cc city (some l)).1.ledgerDisk cc' city' := by
  rw [log_failed_link_refs]
  by_cases hc : cc' = get_country_code cc ∧ city' = city
  · rw [if_pos hc]; exact List.mem_append_left _ h
  · rwa [if_neg hc]

/-! ## Concrete instances used by witnesses and counterexamples -/

def emptyData : CountryData := ⟨"", []⟩

/-- Fresh process state: no ledger file, empty country data. -/
def g0 : Globals := ⟨false, emptyData, none, []⟩

def s1 : Shop := ⟨"shop", "slink"⟩

def dataABC : CountryData := ⟨"FR", [⟨"a", "ua", []⟩, ⟨"b", "ub", []⟩, ⟨"c", "uc", []⟩]⟩

def gABC : Globals := ⟨false, dataABC, none, []⟩

/-- State after one failure merge for ("fr", "paris", "u"). -/
def g4 : Globals := (log_failed_link g0 "fr" "paris" (some "u")).1

/-! ## Claim theorems -/

/-- Claim C3 (code bug): the spec says `runTarget` stores the externally
resolved common name on lookup success and falls back to the upper-cased
normalized identifier only on failure, never aborting the crawl.  The code's
`finally` block (main.py line 378) unconditionally overwrites `country` with
`normalized_country_code.upper()`, so a successful lookup of "France" for
"fr" still yields "FR"; moreover a connection-class lookup failure makes
`scrape_country` return early ("Connection Error"), aborting the Target. -/
theorem C3_thm :
    resolve_country_name true (.ok (some "France")) "fr" = (true, some "FR")
    ∧ resolve_country_name true .connError "fr" = (false, none)
    ∧ (some "FR" : Option String) ≠ some "France" := by
  refine ⟨?_, rfl, by decide⟩
  decide

/-- Claim C4, counterexample: merging the same failure
(target "fr", city "paris", link "u") twice does not leave the ledger equal
to merging it once — the link is duplicated. -/
theorem C4_cx :
    (log_failed_link g4 "fr" "paris" (some "u")).1.ledgerDisk ≠ g4.ledgerDisk := by
  decide

/-- Claim C4 (corrected): the failure merge is not idempotent on the Ledger:
the source reference is appended unconditionally on every merge, so
re-merging an already-merged failure duplicates it in the child's retry
list.  Only the state side is stable: when a normalized-name match already
exists in the state, the state is left unchanged. -/
theorem C4_thm (g : Globals) (cc city l : String)
    (h : ∃ e ∈ g.data.cities, pyNorm e.city = pyNorm city) :
    (log_failed_link g cc city (some l)).2 = true
    ∧ (log_failed_link g cc city (some l)).1.data = g.data
    ∧ ledgerRefs (log_failed_link g cc city (some l)).1.ledgerDisk
        (get_country_code cc) city
      = ledgerRefs g.ledgerDisk (get_country_code cc) city ++ [l] := by
  refine ⟨(log_failed_link_disk g cc city l).2,
    log_failed_link_data_of_found g cc city _ h, ?_⟩
  rw [log_failed_link_refs]
  simp

/-- Claim C4, witness: the amended statement evaluated on the state that
already holds one merged failure for ("fr", "paris", "u"). -/
theorem C4_witness :
    (log_failed_link g4 "fr" "paris" (some "u")).2 = true
    ∧ (log_failed_link g4 "fr" "paris" (some "u")).1.data = g4.data
    ∧ ledgerRefs (log_failed_link g4 "fr" "paris" (some "u")).1.ledgerDisk
        (get_country_code "fr") "paris"
      = ledgerRefs g4.ledgerDisk (get_country_code "fr") "paris" ++ ["u"] :=
  C4_thm g4 "fr" "paris" "u" (by decide)

/-- True exactly for a rename operation. -/
def FsOp.isRename : FsOp → Bool
  | .renameReplace _ _ => true
  | _ => false

/-- Claim C5, counterexample: `save_data` performs no rename at all and
opens the destination file itself in truncating write mode, so the
checkpoint is not written to a temporary location and renamed. -/
theorem C5_cx :
    (save_data_ops "countries/fr.json" "serialized").all
      (fun op => ! FsOp.isRename op) = true
    ∧ FsOp.openTrunc "countries/fr.json" ∈ save_data_ops "countries/fr.json" "serialized" := by
  exact ⟨rfl, by decide⟩

/-- Claim C5 (corrected): every file-system operation of a checkpoint write
targets the destination path directly — the destination is truncated and
rewritten in place; there is no temporary file and no rename, so the write
is not atomic from an external reader's perspective. -/
theorem C5_thm (path content : String) (op : FsOp)
    (hop : op ∈ save_data_ops path content) :
    FsOp.target op = path ∧ FsOp.isRename op = false := by
  simp only [save_data_ops, List.mem_cons, List.not_mem_nil, or_false] at hop
  rcases hop with rfl | rfl
  · exact ⟨rfl, rfl⟩
  · exact ⟨rfl, rfl⟩

/-- Claim C5, witness: the amended statement evaluated on the truncating
open performed for `countries/fr.json`. -/
theorem C5_witness :
    FsOp.target (FsOp.openTrunc "countries/fr.json") = "countries/fr.json"
    ∧ FsOp.isRename (FsOp.openTrunc "countries/fr.json") = false :=
  C5_thm "countries/fr.json" "serialized" (FsOp.openTrunc "countries/fr.json")
    (by decide)

/-- Claim C9, counterexample: the cancellation flag is not set only by the
interrupt signal handler — `scrape_city` sets it on a connection error
(main.py line 337). -/
theorem C9_cx :
    g0.cancel_requested = false
    ∧ (scrape_city g0 .connError "u" "paris" "fr").1.cancel_requested = true := by
  exact ⟨rfl, by decide⟩

/-- Claim C9 (corrected): the cancellation flag is set by the interrupt
handler and additionally by `scrape_city` whenever a connection, timeout or
HTTP fetch error occurs; no modelled operation ever clears it (it is
monotone from `true`); it is polled, never blocked on, at the top of each
job before the jitter sleep and network call. -/
theorem C9_thm (g : Globals) (out : FetchOutcome) (u c cc nc ctry urlc : String)
    (link : Option String) (jobs : List Job) (fd : LedgerFile)
    (links : List String) (outcome : String → String → FetchOutcome)
    (h : g.cancel_requested = true) :
    (interrupt_handler g).cancel_requested = true
    ∧ (scrape_city g out u c cc).1.cancel_requested = true
    ∧ (log_failed_link g cc c link).1.cancel_requested = true
    ∧ (process_completions nc ctry urlc g jobs).1.cancel_requested = true
    ∧ (resume_city g fd cc c outcome links).1.cancel_requested = true
    ∧ (scrape_city { g with cancel_requested := false } .connError u c cc).1.cancel_requested
        = true := by
  refine ⟨rfl, ?_, ?_, ?_, ?_, ?_⟩
  · simp [scrape_city, h]
  · rw [log_failed_link_cancel]; exact h
  · cases jobs with
    | nil => exact h
    | cons j rest =>
      simp [process_completions, scrape_city, h, log_failed_link_cancel]
  · cases links with
    | nil => exact h
    | cons l rest => simp [resume_city, h]
  · simp [scrape_city]

def gT : Globals := ⟨true, emptyData, none, []⟩

/-- Claim C9, witness: the amended statement evaluated on a state whose flag
is already set. -/
theorem C9_witness :
    (interrupt_handler gT).cancel_requested = true
    ∧ (scrape_city gT (.ok []) "u" "paris" "fr").1.cancel_requested = true
    ∧ (log_failed_link gT "fr" "paris" none).1.cancel_requested = true
    ∧ (process_completions "fr" "FR" "urlfr" gT []).1.cancel_requested = true
    ∧ (resume_city gT [] "fr" "paris" (fun _ _ => .ok []) []).1.cancel_requested = true
    ∧ (scrape_city { gT with cancel_requested := false } .connError "u" "paris" "fr").1.cancel_requested
        = true :=
  C9_thm gT (.ok []) "u" "paris" "fr" "fr" "FR" "urlfr" none [] [] []
    (fun _ _ => .ok []) rfl

/-- Claim C10 (confirmed): when the ledger file exists but its JSON object
lacks the (uk→gb normalized) country code as a top-level key, the indexing
`failed_data[country_code]` raises `KeyError` instead of the function
returning gracefully. -/
theorem C10_thm (g : Globals) (fd : LedgerFile) (country_code : String)
    (outcome : String → String → FetchOutcome)
    (hdisk : g.ledgerDisk = some fd)
    (hkey : assocGet fd (if country_code = "uk" then "gb" else country_code) = none) :
    resume_failed_scraping g country_code outcome
      = .error ("KeyError: " ++ (if country_code = "uk" then "gb" else country_code)) := by
  unfold resume_failed_scraping
  rw [hdisk]
  simp [hkey]

def gD : Globals := ⟨false, emptyData, some [("de", [])], []⟩

/-- Claim C10, witness: a ledger file whose only key is "de", resumed for
country "fr". -/
theorem C10_witness :
    resume_failed_scraping gD "fr" (fun _ _ => .ok [])
      = .error ("KeyError: " ++ (if "fr" = "uk" then "gb" else "fr")) :=
  C10_thm gD [("de", [])] "fr" (fun _ _ => .ok []) rfl (by decide)

def jobsC1 : List Job := [⟨"a", "ua", .ok [s1]⟩, ⟨"b", "ub", .connError⟩, ⟨"c", "uc", .ok [s1]⟩]

/-- Claim C1, counterexample: with three children a, b, c where b's fetch
fails with a connection error, the run does not end `Completed` — it aborts
(the failure sets the cancellation flag and the completion loop returns) and
sibling c is never merged (its shop list stays empty). -/
theorem C1_cx :
    (process_completions "fr" "FR" "urlfr" gABC jobsC1).2 ≠ RunExit.completed
    ∧ "ub" ∈ ledgerRefs (process_completions "fr" "FR" "urlfr" gABC jobsC1).1.ledgerDisk
        "fr" "b"
    ∧ ((process_completions "fr" "FR" "urlfr" gABC jobsC1).1.data.cities.find?
        (fun c => c.city = "c")).map CityEntry.shops = some [] := by
  refine ⟨by decide, by decide, by decide⟩

/-- Claim C1 (corrected): a fetch failure (connection error, timeout, or
HTTP error) of a single child job is recorded in the Failure Ledger, but it
is not isolated: `scrape_city` sets the process-wide cancellation flag and
the completion loop aborts the Target run at the failed child, so the
remaining siblings are not processed and the terminal status is not
`Completed`. -/
theorem C1_thm (g : Globals) (j : Job) (rest : List Job) (nc ctry urlc : String)
    (hc : g.cancel_requested = false)
    (hf : j.outcome = .connError ∨ j.outcome = .timeout ∨ j.outcome = .httpError) :
    (process_completions nc ctry urlc g (j :: rest)).2 = RunExit.cancelAbort
    ∧ process_completions nc ctry urlc g (j :: rest)
        = process_completions nc ctry urlc g [j]
    ∧ j.city_url ∈ ledgerRefs (process_completions nc ctry urlc g (j :: rest)).1.ledgerDisk
        (get_country_code nc) j.city_name := by
  have hstep : ∀ tail : List Job, process_completions nc ctry urlc g (j :: tail)
      = ((log_failed_link
            { (log_failed_link g nc j.city_name (some j.city_url)).1 with
                cancel_requested := true } nc ctry (some urlc)).1, .cancelAbort) := by
    intro tail
    rcases hf with hout | hout | hout <;>
      simp [process_completions, scrape_city, hc, hout]
  refine ⟨by rw [hstep], by rw [hstep, hstep], ?_⟩
  rw [hstep]
  apply log_failed_link_refs_mono
  show j.city_url ∈ ledgerRefs
    (log_failed_link g nc j.city_name (some j.city_url)).1.ledgerDisk
    (get_country_code nc) j.city_name
  rw [log_failed_link_refs]
  simp

/-- Claim C1, witness: the amended statement evaluated at child b failing
with a connection error while sibling c is still pending. -/
theorem C1_witness :
    (process_completions "fr" "FR" "urlfr" gABC
        (⟨"b", "ub", .connError⟩ :: [⟨"c", "uc", .ok [s1]⟩])).2 = RunExit.cancelAbort
    ∧ process_completions "fr" "FR" "urlfr" gABC
        (⟨"b", "ub", .connError⟩ :: [⟨"c", "uc", .ok [s1]⟩])
        = process_completions "fr" "FR" "urlfr" gABC [⟨"b", "ub", .connError⟩]
    ∧ Job.city_url ⟨"b", "ub", .connError⟩
        ∈ ledgerRefs (process_completions "fr" "FR" "urlfr" gABC
            (⟨"b", "ub", .connError⟩ :: [⟨"c", "uc", .ok [s1]⟩])).1.ledgerDisk
          (get_country_code "fr") (Job.city_name ⟨"b", "ub", .connError⟩) :=
  C1_thm gABC ⟨"b", "ub", .connError⟩ [⟨"c", "uc", .ok [s1]⟩] "fr" "FR" "urlfr"
    rfl (Or.inl rfl)

def jobsC2 : List Job := [⟨"b", "ub", .ok []⟩, ⟨"c", "uc", .ok [s1]⟩]

/-- Claim C2, counterexample: child b's fetch succeeds with zero leaf
records, yet the failure path runs — a ledger entry is recorded for b — and
the run aborts before sibling c is handled, so an empty-but-successful
result is not accepted as valid final data. -/
theorem C2_cx :
    (process_completions "fr" "FR" "urlfr" gABC jobsC2).2 = RunExit.emptyAbort
    ∧ (process_completions "fr" "FR" "urlfr" gABC jobsC2).2 ≠ RunExit.completed
    ∧ "ub" ∈ ledgerRefs (process_completions "fr" "FR" "urlfr" gABC jobsC2).1.ledgerDisk
        "fr" "b"
    ∧ ((process_completions "fr" "FR" "urlfr" gABC jobsC2).1.data.cities.find?
        (fun c => c.city = "c")).map CityEntry.shops = some [] := by
  refine ⟨by decide, by decide, by decide, by decide⟩

/-- Claim C2 (corrected): a child whose fetch succeeds but yields zero leaf
records is treated exactly like a failure: `if not shops` fires, a ledger
entry is recorded for the child, and the completion loop returns
immediately, stopping the handling of the remaining children of the same
Target. -/
theorem C2_thm (g : Globals) (j : Job) (rest : List Job) (nc ctry urlc : String)
    (hc : g.cancel_requested = false) (hout : j.outcome = .ok []) :
    (process_completions nc ctry urlc g (j :: rest)).2 = RunExit.emptyAbort
    ∧ process_completions nc ctry urlc g (j :: rest)
        = process_completions nc ctry urlc g [j]
    ∧ j.city_url ∈ ledgerRefs (process_completions nc ctry urlc g (j :: rest)).1.ledgerDisk
        (get_country_code nc) j.city_name := by
  have hstep : ∀ tail : List Job, process_completions nc ctry urlc g (j :: tail)
      = ((log_failed_link g nc j.city_name (some j.city_url)).1, .emptyAbort) := by
    intro tail
    simp [process_completions, scrape_city, hc, hout]
  refine ⟨by rw [hstep], by rw [hstep, hstep], ?_⟩
  rw [hstep]
  show j.city_url ∈ ledgerRefs
    (log_failed_link g nc j.city_name (some j.city_url)).1.ledgerDisk
    (get_country_code nc) j.city_name
  rw [log_failed_link_refs]
  simp

/-- Claim C2, witness: the amended statement evaluated at child b returning
an empty shop list while sibling c is still pending. -/
theorem C2_witness :
    (process_completions "fr" "FR" "urlfr" gABC
        (⟨"b", "ub", .ok []⟩ :: [⟨"c", "uc", .ok [s1]⟩])).2 = RunExit.emptyAbort
    ∧ process_completions "fr" "FR" "urlfr" gABC
        (⟨"b", "ub", .ok []⟩ :: [⟨"c", "uc", .ok [s1]⟩])
        = process_completions "fr" "FR" "urlfr" gABC [⟨"b", "ub", .ok []⟩]
    ∧ Job.city_url ⟨"b", "ub", .ok []⟩
        ∈ ledgerRefs (process_completions "fr" "FR" "urlfr" gABC
            (⟨"b", "ub", .ok []⟩ :: [⟨"c", "uc", .ok [s1]⟩])).1.ledgerDisk
          (get_country_code "fr") (Job.city_name ⟨"b", "ub", .ok []⟩) :=
  C2_thm gABC ⟨"b", "ub", .ok []⟩ [⟨"c", "uc", .ok [s1]⟩] "fr" "FR" "urlfr" rfl rfl

def stP : List CityEntry := [⟨"paris", "L", []⟩]

def accP : DiscoverAcc := ⟨stP, [], 0, false⟩

/-- Claim C6, counterexample: the state holds "paris" only as a ledger
placeholder (its identifier is in the ledger), so by the claim the candidate
"paris" must not be skipped; the code skips it anyway (nothing is appended),
because the inner loop tests bare name equality and never consults the
ledger. -/
theorem C6_cx :
    (discover_step "fr" accP ⟨some "/fr/city/paris", "paris"⟩).toSave = []
    ∧ (discover_step "fr" accP ⟨some "/fr/city/paris", "paris"⟩).dataCities = stP
    ∧ spec_skip_rule stP [("paris", ["u"])] "paris" = false := by
  refine ⟨by decide, by decide, by decide⟩

/-- Claim C6 (corrected): during discovery a candidate whose `href` passes
the `/{ncc}/city` filter is skipped exactly when an entry whose `city` field
is byte-for-byte equal to the candidate's trimmed name already exists in the
state — regardless of ledger membership and without case-insensitive
comparison. -/
theorem C6_thm (acc : DiscoverAcc) (ncc href text : String)
    (h1 : href ≠ "") (h2 : pyStartswith href ("/" ++ ncc ++ "/city") = true) :
    ((discover_step ncc acc ⟨some href, text⟩).toSave = acc.toSave
      ↔ acc.dataCities.any (fun c => c.city = pyStrip text) = true) := by
  unfold discover_step
  dsimp only
  rw [if_pos ⟨h1, h2⟩]
  by_cases hex : acc.dataCities.any (fun c => c.city = pyStrip text) = true
  · simp [hex]
  · simp only [Bool.not_eq_true] at hex
    simp only [hex, Bool.false_eq_true, if_false, iff_false]
    intro hcontra
    have := congrArg List.length hcontra
    simp at this

/-- Claim C6, witness: the amended statement evaluated on the candidate
"paris" against a state already holding "paris". -/
theorem C6_witness :
    ((discover_step "fr" accP ⟨some "/fr/city/paris", "paris"⟩).toSave = accP.toSave
      ↔ accP.dataCities.any (fun c => c.city = pyStrip "paris") = true) :=
  C6_thm accP "fr" "/fr/city/paris" "paris" (by decide) (by decide)

theorem assocGet_removeKey_self {α : Type} (m : List (String × α)) (k : String) :
    assocGet (removeKey m k) k = none := by
  induction m with
  | nil => rfl
  | cons p rest ih =>
    by_cases h : p.1 = k
    · simpa [removeKey, List.filter_cons, h] using ih
    · simpa [removeKey, List.filter_cons, h, assocGet] using ih

/-- Claim C7 (confirmed): during resume, a replayed source reference whose
fetch resolves successfully (non-empty result) is removed from the in-memory
ledger immediately and the ledger file is rewritten right away — exactly one
write per resolved reference, not batched; the city's entry is dropped when
its reference list becomes empty, and the ledger file itself is removed when
the country's map becomes empty; only then does the loop move to the next
reference. -/
theorem C7_thm (g : Globals) (fd : LedgerFile) (cl : CityLinks) (ls : List String)
    (cc city link : String) (rest : List String) (shops : List Shop)
    (outcome : String → String → FetchOutcome)
    (hc : g.cancel_requested = false)
    (ho : outcome city link = .ok shops)
    (hs : shops ≠ [])
    (hcc : assocGet fd cc = some cl)
    (hcity : assocGet cl city = some ls) :
    ∃ g2 fd2,
      resume_city g fd cc city outcome (link :: rest)
        = resume_city g2 fd2 cc city outcome rest
      ∧ ledgerRefs (some fd2) cc city = ls.erase link
      ∧ ((assocGet ((assocGet fd2 cc).getD []) city).isSome ↔ ls.erase link ≠ [])
      ∧ g2.ledgerTrace = g.ledgerTrace ++ [fd2]
      ∧ g2.ledgerDisk = (if assocGet fd2 cc = some [] then none else some fd2) := by
  obtain ⟨s0, stl, hshops⟩ := List.exists_cons_of_ne_nil hs
  subst hshops
  set clA := updateAt cl city (fun ls0 => ls0.erase link) with hclA
  set fdA := updateAt fd cc (fun cl0 => updateAt cl0 city (fun ls0 => ls0.erase link)) with hfdA
  set fdB := updateAt fdA cc (fun cl0 =>
    if assocGet cl0 city = some [] then removeKey cl0 city else cl0) with hfdB
  have hgetA : assocGet fdA cc = some clA := by
    rw [hfdA, assocGet_updateAt_self, hcc]; rfl
  have hgetAcity : assocGet clA city = some (ls.erase link) := by
    rw [hclA, assocGet_updateAt_self, hcity]; rfl
  have hgetB : assocGet fdB cc
      = some (if ls.erase link = [] then removeKey clA city else clA) := by
    rw [hfdB, assocGet_updateAt_self, hgetA]
    simp [hgetAcity]
  refine ⟨(if assocGet fdB cc = some [] then
      { writeLedger { g with data := { g.data with
          cities := updateFirstCityShops g.data.cities city (s0 :: stl) } } fdB
        with ledgerDisk := none }
    else writeLedger { g with data := { g.data with
          cities := updateFirstCityShops g.data.cities city (s0 :: stl) } } fdB),
    fdB, ?_, ?_, ?_, ?_, ?_⟩
  · simp [resume_city, hc, ho, scrape_city, hfdB, hfdA]
  · unfold ledgerRefs
    simp only [Option.getD_some, hgetB]
    by_cases hnil : ls.erase link = []
    · rw [if_pos hnil, assocGet_removeKey_self]
      simp [hnil]
    · rw [if_neg hnil, hgetAcity]
      rfl
  · rw [hgetB]
    by_cases hnil : ls.erase link = []
    · rw [if_pos hnil]
      simp [assocGet_removeKey_self, hnil]
    · rw [if_neg hnil]
      simp [hgetAcity, hnil]
  · by_cases hrem : assocGet fdB cc = some []
    · rw [if_pos hrem]; simp [writeLedger]
    · rw [if_neg hrem]; simp [writeLedger]
  · by_cases hrem : assocGet fdB cc = some []
    · rw [if_pos hrem, if_pos hrem]
    · rw [if_neg hrem, if_neg hrem]; simp [writeLedger]

def gW7 : Globals := ⟨false, ⟨"FR", [⟨"paris", "L", []⟩]⟩, some [("fr", [("paris", ["u"])])], []⟩

/-- Claim C7, witness: resuming the single failed reference "u" of city
"paris", whose retry succeeds with one shop. -/
theorem C7_witness :
    ∃ g2 fd2,
      resume_city gW7 [("fr", [("paris", ["u"])])] "fr" "paris"
          (fun _ _ => .ok [s1]) ("u" :: [])
        = resume_city g2 fd2 "fr" "paris" (fun _ _ => .ok [s1]) []
      ∧ ledgerRefs (some fd2) "fr" "paris" = ["u"].erase "u"
      ∧ ((assocGet ((assocGet fd2 "fr").getD []) "paris").isSome ↔ ["u"].erase "u" ≠ [])
      ∧ g2.ledgerTrace = gW7.ledgerTrace ++ [fd2]
      ∧ g2.ledgerDisk = (if assocGet fd2 "fr" = some [] then none else some fd2) :=
  C7_thm gW7 [("fr", [("paris", ["u"])])] [("paris", ["u"])] ["u"] "fr" "paris" "u"
    [] [s1] (fun _ _ => .ok [s1]) rfl rfl (by decide) (by decide) (by decide)

/-- City-key chase through the `failed_data` construction: every city key of
the built dict either came from the previous file contents or is the city
being recorded. -/
theorem builtFailedData_city_of_mem (fd0 : LedgerFile) (ncc city : String)
    (link : Option String) (p : String × CityLinks)
    (hp : p ∈ builtFailedData fd0 ncc city link) (q : String × List String)
    (hq : q ∈ p.2) :
    (∃ p0 ∈ fd0, ∃ q0 ∈ p0.2, q.1 = q0.1) ∨ q.1 = city := by
  have main : ∀ p2 ∈ updateAt (ensureKey fd0 ncc) ncc (fun cl => ensureKey cl city),
      ∀ q2 ∈ (p2 : String × CityLinks).2,
      (∃ p0 ∈ fd0, ∃ q0 ∈ p0.2, q2.1 = q0.1) ∨ q2.1 = city := by
    intro p2 hp2 q2 hq2
    obtain ⟨p1, hp1, _, hsnd⟩ := mem_updateAt hp2
    have hq1 : q2 ∈ p1.2 ∨ q2 = (city, []) := by
      rcases hsnd with hcase | hcase
      · rw [hcase] at hq2; exact Or.inl hq2
      · rw [hcase] at hq2; exact mem_ensureKey hq2
    rcases hq1 with hq1 | hq1
    · rcases mem_ensureKey hp1 with hin | heq
      · exact Or.inl ⟨p1, hin, q2, hq1, rfl⟩
      · rw [heq] at hq1; simp at hq1
    · exact Or.inr (by rw [hq1])
  cases link with
  | none => exact main p hp q hq
  | some l =>
    obtain ⟨p2, hp2, _, hsnd⟩ := mem_updateAt hp
    rcases hsnd with hcase | hcase
    · rw [hcase] at hq; exact main p2 hp2 q hq
    · rw [hcase] at hq
      have hq' : q ∈ updateAt p2.2 city (fun ls => ls ++ [l]) := hq
      obtain ⟨q2, hq2, hqfst, _⟩ := mem_updateAt hq'
      rw [hqfst]
      exact main p2 hp2 q2 hq2

/-- Claim C8 (confirmed): after every failure merge, every city identifier
present in the Target's Ledger is backed by a state entry with the same
normalized name — the merge inserts a placeholder entry (empty shop list)
exactly when no normalized match exists, so there is never a ledger entry
without a backing state entry. -/
theorem C8_thm (g : Globals) (cc city : String) (link : Option String)
    (h : ledgerBacked g) : ledgerBacked (log_failed_link g cc city link).1 := by
  simp only [log_failed_link]
  by_cases hany : g.data.cities.any (fun c => pyNorm c.city = pyNorm city) = true
  · rw [if_pos hany]
    obtain ⟨e, he, hme⟩ := List.any_eq_true.mp hany
    simp only [decide_eq_true_eq] at hme
    intro p hp q hq
    show ∃ e0 ∈ g.data.cities, pyNorm e0.city = pyNorm q.1
    have hp' : p ∈ builtFailedData (g.ledgerDisk.getD [])
        (get_country_code cc) city link := hp
    rcases builtFailedData_city_of_mem _ _ _ _ p hp' q hq with ⟨p0, hp0, q0, hq0, heq⟩ | hcity
    · obtain ⟨e0, he0, hn0⟩ := h p0 hp0 q0 hq0
      exact ⟨e0, he0, by rw [heq]; exact hn0⟩
    · exact ⟨e, he, by rw [hcity]; exact hme⟩
  · rw [if_neg hany]
    cases link with
    | none => exact h
    | some l =>
      intro p hp q hq
      show ∃ e0 ∈ g.data.cities ++ [⟨pyStrip city, pyStrip l, []⟩],
        pyNorm e0.city = pyNorm q.1
      have hp' : p ∈ builtFailedData (g.ledgerDisk.getD [])
          (get_country_code cc) city (some l) := hp
      rcases builtFailedData_city_of_mem _ _ _ _ p hp' q hq with ⟨p0, hp0, q0, hq0, heq⟩ | hcity
      · obtain ⟨e0, he0, hn0⟩ := h p0 hp0 q0 hq0
        exact ⟨e0, List.mem_append_left _ he0, by rw [heq]; exact hn0⟩
      · refine ⟨⟨pyStrip city, pyStrip l, []⟩,
          List.mem_append_right _ (List.mem_singleton.mpr rfl), ?_⟩
        rw [hcity]
        exact pyNorm_pyStrip city

/-- Claim C8, witness: the invariant holds after merging the failure
("fr", "paris", "u") into a fresh state with an empty ledger. -/
theorem C8_witness : ledgerBacked (log_failed_link g0 "fr" "paris" (some "u")).1 :=
  C8_thm g0 "fr" "paris" (some "u") (fun p hp => absurd hp (by simp [g0]))

end UberScraper
